import Mathlib

/-!
Verification of the upload-and-mapping wizard of the actuary-frontend
repository against its natural-language specification.

The development shallowly embeds the program logic that the claims are
about:

* the canonical-field catalog and the field-mapping validator
  (function getValidationStatus of the MappingWizard component);
* the mapping submitter (function handleSubmit of the MappingWizard
  component, and of the SimpleMappingWizard component);
* the status poller (function pollStatus of the api service);
* the wizard controller (functions startStatusPolling and
  handleFileUpload of the UploadWizard component).

TypeScript values of type string-or-null are embedded as Option String.
A JavaScript truthiness test on such a value (used by the source in
several places) is false exactly on null and on the empty string; the
function strTruthy below embeds that test.  Numeric fields
(populated_pct, confidence, progress) are embedded as rationals: the
claims under verification never exercise floating-point rounding, only
copying and one order comparison against 0.7.
-/

/-- The three file types of the wizard (the union type
policy | claim | cancel of the source). -/
inductive FileType
  | policy
  | claim
  | cancel
deriving DecidableEq, Repr

/-- String name of a file type, as interpolated into messages and keys
by the source. -/
def FileType.toStr : FileType → String
  | .policy => "policy"
  | .claim => "claim"
  | .cancel => "cancel"

/-- The requiredFields table of the MappingWizard component. -/
def requiredFields : FileType → List String
  | .policy => ["policy_number", "effective_date", "expiration_date", "premium_written", "product_type"]
  | .claim => ["claim_number", "policy_number", "paid_date", "report_date", "paid_amount"]
  | .cancel => ["policy_number", "cancel_date", "refund_premium"]

/-- The REQUIRED_FIELDS table of the SimpleMappingWizard component
(the source repeats the same table in both wizard variants). -/
def REQUIRED_FIELDS : FileType → List String
  | .policy => ["policy_number", "effective_date", "expiration_date", "premium_written", "product_type"]
  | .claim => ["claim_number", "policy_number", "paid_date", "report_date", "paid_amount"]
  | .cancel => ["policy_number", "cancel_date", "refund_premium"]

/-- A field-detection suggestion as returned by the detect endpoint. -/
structure MappingSuggestion where
  source_field : String
  suggested_canonical : String
  populated_pct : Rat
  detected_type : String
  confidence : Rat
deriving DecidableEq, Repr

/-- Status of an uploaded file in the wizard. -/
inductive FileStatus
  | pending
  | processing
  | completed
  | error
deriving DecidableEq, Repr

/-- An entry of the uploadedFiles list of the UploadWizard component.
The opaque browser File handle carries no logic and is omitted. -/
structure UploadedFile where
  id : String
  name : String
  type : FileType
  status : FileStatus
  mappingSuggestions : Option (List MappingSuggestion)
deriving DecidableEq, Repr

/-- A row of the fieldMappings state of the MappingWizard component. -/
structure FieldMapping where
  sourceField : String
  canonicalField : Option String
  fileType : FileType
  populated_pct : Rat
  detected_type : String
  confidence : Rat
  required : Bool
deriving DecidableEq, Repr

/-- JavaScript truthiness of a string-or-null value: false exactly on
null and on the empty string.  The source tests canonicalField and
uploadId this way. -/
def strTruthy : Option String → Bool
  | none => false
  | some s => !(s == "")

/-- The error message pushed by getValidationStatus for an unmapped
required field. -/
def reqErrMsg (name : String) (ft : FileType) : String :=
  "Required field \"" ++ name ++ "\" not mapped in " ++ ft.toStr ++ " file"

/-- The key string built by getValidationStatus for the duplicate
check. -/
def dupKey (ft : FileType) (c : String) : String :=
  ft.toStr ++ "_" ++ c

/-- The error message pushed by getValidationStatus for a duplicate
key occurrence. -/
def dupErrMsg (k : String) : String :=
  "Duplicate mapping detected: " ++ k

/-- The test fieldMappings.some used by the required-field loop of
getValidationStatus: strict equality of canonicalField with the
required name. -/
def isMappedIn (ms : List FieldMapping) (ft : FileType) (name : String) : Bool :=
  ms.any (fun m => m.fileType == ft && m.canonicalField == some name)

/-- The required-field errors of getValidationStatus: one per uploaded
file and unmapped required canonical name, in loop order. -/
def requiredErrors (ms : List FieldMapping) (ufs : List UploadedFile) : List String :=
  ufs.flatMap (fun f =>
    (requiredFields f.type).filterMap (fun r =>
      if isMappedIn ms f.type r then none else some (reqErrMsg r f.type)))

/-- The mappedFields list of getValidationStatus: keys of the mappings
whose canonicalField is truthy, in order. -/
def mappedKeys (ms : List FieldMapping) : List String :=
  (ms.filter (fun m => strTruthy m.canonicalField)).map
    (fun m => dupKey m.fileType (m.canonicalField.getD ""))

/-- The JavaScript filter keeping each element whose index differs from
the first index of its value, i.e. each occurrence preceded by an equal
element; seen accumulates the preceding elements. -/
def jsDupFilter (seen : List String) : List String → List String
  | [] => []
  | x :: rest =>
    if seen.contains x then x :: jsDupFilter (x :: seen) rest
    else jsDupFilter (x :: seen) rest

/-- The duplicates list of getValidationStatus. -/
def jsDuplicates (l : List String) : List String :=
  jsDupFilter [] l

/-- Result record of getValidationStatus. -/
structure ValidationStatus where
  errors : List String
  warnings : List String
  isValid : Bool
deriving DecidableEq, Repr

/-- The low-confidence warning message of getValidationStatus. -/
def lowConfWarning (m : FieldMapping) : String :=
  "Low confidence mapping for \"" ++ m.sourceField ++ "\" -> \"" ++ m.canonicalField.getD "" ++ "\""

/-- The confidence warnings of getValidationStatus: one per mapping
with truthy canonicalField and confidence below 0.7. -/
def confWarnings (ms : List FieldMapping) : List String :=
  ms.filterMap (fun m =>
    if strTruthy m.canonicalField && m.confidence < 7 / 10 then some (lowConfWarning m) else none)

/-- getValidationStatus of the MappingWizard component: required-field
errors, then duplicate errors; isValid holds iff the error list is
empty.  (The spec calls this function Validator.evaluate.) -/
def getValidationStatus (ms : List FieldMapping) (ufs : List UploadedFile) : ValidationStatus :=
  let errors := requiredErrors ms ufs ++ (jsDuplicates (mappedKeys ms)).map dupErrMsg
  ⟨errors, confWarnings ms, errors.length == 0⟩

/-- An entry of the per-file-type mapping table submitted by
handleSubmit of the MappingWizard component. -/
structure SubmitEntry where
  canonical_field : String
  populated_pct : Rat
  detected_type : String
  confidence : Rat
deriving DecidableEq, Repr

/-- The payload built from one mapping by handleSubmit. -/
def submitEntry (m : FieldMapping) : SubmitEntry :=
  ⟨m.canonicalField.getD "", m.populated_pct, m.detected_type, m.confidence⟩

/-- JavaScript object assignment on an association list: an existing
key keeps its position and gets the new value, a new key is appended. -/
def jsObjSet {α : Type} (l : List (String × α)) (k : String) (v : α) : List (String × α) :=
  if l.any (fun p => p.1 == k) then
    l.map (fun p => if p.1 == k then (k, v) else p)
  else l ++ [(k, v)]

/-- One step of the grouping fold of handleSubmit: insert a truthy
mapping into the group of its file type, creating the group if
needed. -/
def groupedSet (acc : List (FileType × List (String × SubmitEntry))) (m : FieldMapping) :
    List (FileType × List (String × SubmitEntry)) :=
  if acc.any (fun p => p.1 == m.fileType) then
    acc.map (fun p => if p.1 == m.fileType then (p.1, jsObjSet p.2 m.sourceField (submitEntry m)) else p)
  else acc ++ [(m.fileType, [(m.sourceField, submitEntry m)])]

/-- The groupedMappings object of handleSubmit of the MappingWizard
component: mappings with truthy canonicalField grouped by file type,
keyed by sourceField. -/
def groupedMappings (ms : List FieldMapping) : List (FileType × List (String × SubmitEntry)) :=
  ms.foldl (fun acc m => if strTruthy m.canonicalField then groupedSet acc m else acc) []

/-- A submitMapping request of the api service. -/
structure MappingRequest where
  upload_id : String
  file_type : FileType
  mappings : List (String × SubmitEntry)
deriving DecidableEq, Repr

/-- The list of submitMapping requests dispatched by handleSubmit of
the MappingWizard component, one per key of groupedMappings. -/
def buildRequests (uploadId : String) (ms : List FieldMapping) : List MappingRequest :=
  (groupedMappings ms).map (fun p => ⟨uploadId, p.1, p.2⟩)

/-- Outcome of handleSubmit of the MappingWizard component. -/
inductive SubmitOutcome
  | validationFailed
  | missingUploadId
  | submitted (requests : List MappingRequest)
deriving DecidableEq, Repr

/-- handleSubmit of the MappingWizard component: validation gate, then
the uploadId truthiness gate, then the fan-out of submitMapping
requests.  (The spec calls this operation MappingSubmitter.submit.) -/
def handleSubmit (ms : List FieldMapping) (ufs : List UploadedFile) (uploadId : Option String) :
    SubmitOutcome :=
  if !(getValidationStatus ms ufs).isValid then .validationFailed
  else if !(strTruthy uploadId) then .missingUploadId
  else .submitted (buildRequests (uploadId.getD "") ms)

/-- Aggregate status of an upload session. -/
inductive Overall
  | pending
  | running
  | done
  | failed
  | unknown
deriving DecidableEq, Repr

/-- State of one per-file-type processing job. -/
inductive JobState
  | queued
  | running
  | done
  | failed
deriving DecidableEq, Repr

/-- One job entry of a status response. -/
structure JobStatus where
  file_type : String
  status : JobState
  progress : Rat
  message : String
  updated_at : String
deriving DecidableEq, Repr

/-- A response of the getStatus endpoint. -/
structure StatusResponse where
  upload_id : String
  jobs : List JobStatus
  overall : Overall
deriving DecidableEq, Repr

/-- The fixed delay passed to setTimeout by pollStatus. -/
def POLL_INTERVAL_MS : Nat := 2000

/-- The terminal test of pollStatus: overall is done or failed. -/
def isTerminalOverall (o : Overall) : Bool :=
  o == .done || o == .failed

/-- Outcome of a pollStatus run over a finite sequence of fetch
results. -/
inductive PollOutcome
  | resolved (s : StatusResponse)
  | rejected
  | stillPolling
deriving DecidableEq, Repr

/-- Trace of a pollStatus run: the arguments of the onUpdate
invocations in order, the delays of the scheduled follow-up fetches in
order, and the outcome. -/
structure PollRun where
  updates : List StatusResponse
  delays : List Nat
  outcome : PollOutcome
deriving DecidableEq, Repr

/-- pollStatus of the api service, run over a finite sequence of fetch
results (some s is a fetch resolving with s, none is a fetch failure,
which rejects the whole operation before any onUpdate call for it).
Each successful fetch invokes onUpdate, then either resolves on a
terminal overall or schedules the next fetch after POLL_INTERVAL_MS. -/
def pollStatusRun : List (Option StatusResponse) → PollRun
  | [] => ⟨[], [], .stillPolling⟩
  | none :: _ => ⟨[], [], .rejected⟩
  | some s :: rest =>
    if isTerminalOverall s.overall then ⟨[s], [], .resolved s⟩
    else
      let r := pollStatusRun rest
      ⟨s :: r.updates, POLL_INTERVAL_MS :: r.delays, r.outcome⟩

/-- The steps of the UploadWizard component. -/
inductive UploadStep
  | checklist
  | upload
  | mapping
  | processing
  | complete
deriving DecidableEq, Repr

/-- The slice of UploadWizard state touched by the polling observer
callback. -/
structure WizardView where
  currentStep : UploadStep
  jobStatuses : List JobStatus
  overallStatus : Overall
deriving DecidableEq, Repr

/-- The observer callback passed to pollStatus by startStatusPolling of
the UploadWizard component: stores jobs and overall, then moves the
step to complete exactly when overall is done (the failed case only
raises a toast). -/
def pollObserverUpdate (st : WizardView) (status : StatusResponse) : WizardView :=
  let st1 : WizardView := ⟨st.currentStep, status.jobs, status.overall⟩
  if status.overall == .done then ⟨.complete, st1.jobStatuses, st1.overallStatus⟩ else st1

/-- Index of the last dot of a character list (the lastIndexOf of the
source), as an option. -/
def lastDotIdxAux (i : Nat) (acc : Option Nat) : List Char → Option Nat
  | [] => acc
  | c :: rest => lastDotIdxAux (i + 1) (if c == '.' then some i else acc) rest

/-- The toLowerCase call of handleFileUpload, over the character list
(ASCII case folding, which covers every candidate the extension check
compares against). -/
def strToLower (s : String) : String :=
  String.mk (s.data.map Char.toLower)

/-- The fileExtension computation of handleFileUpload: lower-case the
name and take the substring from the last dot.  When there is no dot,
lastIndexOf yields -1 and the JavaScript substring clamps it to 0, so
the whole lower-cased name is returned. -/
def jsFileExt (name : String) : String :=
  let lower := strToLower name
  match lastDotIdxAux 0 none lower.data with
  | none => lower
  | some i => String.mk (lower.data.drop i)

/-- The validExtensions list of handleFileUpload. -/
def validExtensions : List String :=
  [".csv", ".xlsx", ".xls"]

/-- A network call issued by handleFileUpload, with the arguments the
claims are about. -/
inductive ApiEvent
  | uploadCall (ft : FileType)
  | detectCall (uploadId : String) (ft : FileType)
deriving DecidableEq, Repr

/-- The slice of UploadWizard state touched by handleFileUpload. -/
structure UploadState where
  uploadedFiles : List UploadedFile
  uploadId : Option String
deriving DecidableEq, Repr

/-- The uploadedFiles update of handleFileUpload: remove any existing
file of the same type, then append the new file. -/
def jsAddFile (files : List UploadedFile) (nf : UploadedFile) : List UploadedFile :=
  files.filter (fun f => !(f.type == nf.type)) ++ [nf]

/-- The setUploadedFiles(prev.map ...) pattern of handleFileUpload:
update the file with the given id, leave the others alone. -/
def markFile (files : List UploadedFile) (id : String) (upd : UploadedFile → UploadedFile) :
    List UploadedFile :=
  files.map (fun f => if f.id == id then upd f else f)

/-- Set the status of a file. -/
def setStatus (s : FileStatus) (f : UploadedFile) : UploadedFile :=
  ⟨f.id, f.name, f.type, s, f.mappingSuggestions⟩

/-- Mark a file completed and attach its detection suggestions. -/
def setCompleted (dets : List MappingSuggestion) (f : UploadedFile) : UploadedFile :=
  ⟨f.id, f.name, f.type, .completed, some dets⟩

/-- handleFileUpload of the UploadWizard component, embedded as a state
transition.  newId stands for the random id given to the new file;
uploadResp and detectResp are the results of the two network calls
(none embeds a rejected call, which lands in the catch block and marks
the file in error).  The first branch is taken when the stored uploadId
is not truthy; it stores the fresh upload_id before field detection, so
a later detection failure leaves it stored.  The second branch never
touches the stored uploadId and uses the fresh upload_id of this call
only for the field-detection request. -/
def handleFileUpload (st : UploadState) (newId : String) (fileName : String) (ft : FileType)
    (uploadResp : Option String) (detectResp : Option (List MappingSuggestion)) :
    UploadState × List ApiEvent :=
  if !(validExtensions.contains (jsFileExt fileName)) then (st, [])
  else
    let nf : UploadedFile := ⟨newId, fileName, ft, .pending, none⟩
    let files0 := jsAddFile st.uploadedFiles nf
    let files1 := markFile files0 newId (setStatus .processing)
    if !(strTruthy st.uploadId) then
      match uploadResp with
      | none => (⟨markFile files1 newId (setStatus .error), st.uploadId⟩, [.uploadCall ft])
      | some uid =>
        match detectResp with
        | none =>
          (⟨markFile files1 newId (setStatus .error), some uid⟩, [.uploadCall ft, .detectCall uid ft])
        | some dets =>
          (⟨markFile files1 newId (setCompleted dets), some uid⟩, [.uploadCall ft, .detectCall uid ft])
    else
      match uploadResp with
      | none => (⟨markFile files1 newId (setStatus .error), st.uploadId⟩, [.uploadCall ft])
      | some uid =>
        match detectResp with
        | none =>
          (⟨markFile files1 newId (setStatus .error), st.uploadId⟩, [.uploadCall ft, .detectCall uid ft])
        | some dets =>
          (⟨markFile files1 newId (setCompleted dets), st.uploadId⟩, [.uploadCall ft, .detectCall uid ft])

/-- The filesByType lookup of the SimpleMappingWizard component: the
first uploaded file of the given type. -/
def filesByType (ufs : List UploadedFile) (ft : FileType) : Option UploadedFile :=
  ufs.find? (fun f => f.type == ft)

/-- The per-file-type part of the initialSelections memo of the
SimpleMappingWizard component: for each required canonical name, the
source field of the first suggestion suggesting it, when present. -/
def initSelectionsFor (file : Option UploadedFile) (ft : FileType) : List (String × String) :=
  match file with
  | none => []
  | some f =>
    (REQUIRED_FIELDS ft).filterMap (fun c =>
      match (f.mappingSuggestions.getD []).find? (fun s => s.suggested_canonical == c) with
      | some s => some (c, s.source_field)
      | none => none)

/-- The initialSelections memo of the SimpleMappingWizard component,
as a per-file-type table of canonical-to-source picks. -/
def initialSelections (ufs : List UploadedFile) : FileType → List (String × String) :=
  fun ft => initSelectionsFor (filesByType ufs ft) ft

/-- The setSelections update of the SimpleMappingWizard component:
overwrite the pick of one canonical field of one file type. -/
def setSelection (sel : FileType → List (String × String)) (ft : FileType) (c v : String) :
    FileType → List (String × String) :=
  fun t => if t == ft then jsObjSet (sel ft) c v else sel t

/-- The selection tables reachable in the SimpleMappingWizard
component: the initial table, then any number of dropdown updates.
The dropdowns are rendered by mapping over REQUIRED_FIELDS of the file
type, so every update assigns a required canonical name. -/
inductive ReachableSel (ufs : List UploadedFile) : (FileType → List (String × String)) → Prop
  | init : ReachableSel ufs (initialSelections ufs)
  | update {sel : FileType → List (String × String)} {ft : FileType} {c v : String} :
      ReachableSel ufs sel → c ∈ REQUIRED_FIELDS ft → ReachableSel ufs (setSelection sel ft c v)

/-- An entry of the per-file-type mapping table submitted by
handleSubmit of the SimpleMappingWizard component; the meta fields fall
back to null when no suggestion matches the picked source field. -/
structure SimpleEntry where
  canonical_field : String
  populated_pct : Option Rat
  detected_type : Option String
  confidence : Option Rat
deriving DecidableEq, Repr

/-- A submitMapping request of the SimpleMappingWizard component. -/
structure SimpleRequest where
  upload_id : String
  file_type : FileType
  mappings : List (String × SimpleEntry)
deriving DecidableEq, Repr

/-- getSuggestionMeta of the SimpleMappingWizard component: the first
suggestion of the file whose source_field equals the picked source
(undefined when the source is not truthy or nothing matches). -/
def getSuggestionMeta (file : Option UploadedFile) (sourceField : String) :
    Option MappingSuggestion :=
  if sourceField == "" then none
  else
    match file with
    | none => none
    | some f => (f.mappingSuggestions.getD []).find? (fun s => s.source_field == sourceField)

/-- The payload entry built by handleSubmit of the SimpleMappingWizard
component for one picked pair. -/
def simpleEntryFor (file : Option UploadedFile) (c source : String) : SimpleEntry :=
  match getSuggestionMeta file source with
  | some m => ⟨c, some m.populated_pct, some m.detected_type, some m.confidence⟩
  | none => ⟨c, none, none, none⟩

/-- The mappingForType object of handleSubmit of the SimpleMappingWizard
component: entries of the picked table keyed by source field, skipping
picks whose source is not truthy. -/
def simpleGroupFor (file : Option UploadedFile) (picked : List (String × String)) :
    List (String × SimpleEntry) :=
  picked.foldl (fun acc p =>
    if p.2 == "" then acc
    else jsObjSet acc p.2 (simpleEntryFor file p.1 p.2)) []

/-- Iteration order of Object.keys(filesByType). -/
def simpleFileTypes : List FileType :=
  [.policy, .claim, .cancel]

/-- The requests dispatched by handleSubmit of the SimpleMappingWizard
component: one per present file type whose group is non-empty. -/
def simpleBuildRequests (uploadId : String) (ufs : List UploadedFile)
    (sel : FileType → List (String × String)) : List SimpleRequest :=
  ((simpleFileTypes.filterMap (fun ft =>
      match filesByType ufs ft with
      | none => none
      | some f => some (ft, simpleGroupFor (some f) (sel ft)))).filter
    (fun p => !(p.2.length == 0))).map (fun p => ⟨uploadId, p.1, p.2⟩)

/-- First-occurrence deduplication (the Array.from(new Set(...)) of the
source). -/
def jsUnique (l : List String) : List String :=
  l.foldl (fun acc x => if acc.contains x then acc else acc ++ [x]) []

/-- validate of the SimpleMappingWizard component: per present file
type, an error per required canonical name without a truthy pick, then
one error listing duplicate picked source fields when any source field
is picked twice. -/
def simpleValidate (ufs : List UploadedFile) (sel : FileType → List (String × String)) :
    List String :=
  simpleFileTypes.flatMap (fun ft =>
    match filesByType ufs ft with
    | none => []
    | some _ =>
      let picked := sel ft
      let reqErrs := (REQUIRED_FIELDS ft).filterMap (fun c =>
        match picked.find? (fun p => p.1 == c) with
        | some p =>
          if p.2 == "" then some (ft.toStr ++ ": map required field \"" ++ c ++ "\"") else none
        | none => some (ft.toStr ++ ": map required field \"" ++ c ++ "\""))
      let values := (picked.map Prod.snd).filter (fun v => !(v == ""))
      let dupes := jsDuplicates values
      reqErrs ++
        (if dupes.length == 0 then []
         else [ft.toStr ++ ": duplicate source fields selected (" ++
                 String.intercalate ", " (jsUnique dupes) ++ ")"]))

/-- Outcome of handleSubmit of the SimpleMappingWizard component. -/
inductive SimpleOutcome
  | validationFailed (errors : List String)
  | missingUploadId
  | submitted (requests : List SimpleRequest)
deriving DecidableEq, Repr

/-- handleSubmit of the SimpleMappingWizard component: validation gate,
then the uploadId truthiness gate, then the fan-out of requests. -/
def simpleHandleSubmit (ufs : List UploadedFile) (sel : FileType → List (String × String))
    (uploadId : Option String) : SimpleOutcome :=
  let errors := simpleValidate ufs sel
  if !(errors.length == 0) then .validationFailed errors
  else if !(strTruthy uploadId) then .missingUploadId
  else .submitted (simpleBuildRequests (uploadId.getD "") ufs sel)

/-- The sublist of mappings whose canonicalField is truthy (the ones
the duplicate check and the submitter look at). -/
def truthyMs (ms : List FieldMapping) : List FieldMapping :=
  ms.filter (fun m => strTruthy m.canonicalField)

/-- Claim predicate: every required canonical field of every uploaded
file type has exactly one source field of that file type mapped to
it. -/
def requiredMappedExactlyOnce (ms : List FieldMapping) (ufs : List UploadedFile) : Prop :=
  ∀ t : FileType, t ∈ ufs.map UploadedFile.type → ∀ r ∈ requiredFields t,
    (ms.filter (fun m => m.fileType == t && m.canonicalField == some r)).length = 1

/-- Claim predicate, read as the claim states it: no (fileType,
canonicalField) pair with non-null canonicalField occurs on more than
one mapping. -/
def noDuplicatePairs (ms : List FieldMapping) : Prop :=
  ∀ (t : FileType) (c : String),
    (ms.filter (fun m => m.fileType == t && m.canonicalField == some c)).length ≤ 1

/-- Amended claim predicate: no (fileType, canonicalField) pair whose
canonicalField is a non-empty string occurs on more than one mapping
(the validator ignores empty-string canonical fields, exactly as it
ignores null ones). -/
def noTruthyDuplicatePairs (ms : List FieldMapping) : Prop :=
  ∀ (t : FileType) (c : String), c ≠ "" →
    (ms.filter (fun m => m.fileType == t && m.canonicalField == some c)).length ≤ 1

/-- Number of uploaded files of a type. -/
def countType (files : List UploadedFile) (t : FileType) : Nat :=
  (files.filter (fun f => f.type == t)).length

/-- Claim C2: for every sequence of fetched sessions, pollStatus
resolves exactly at the first fetch whose overall status is done or
failed, resolving with that session; onUpdate is invoked exactly once
per fetch, the terminal fetch included, and each non-terminal fetch
schedules its successor after the fixed 2000 ms delay. -/
theorem pollStatus_first_terminal (fetches : List StatusResponse) (i : Nat)
    (hi : i < fetches.length)
    (hterm : isTerminalOverall fetches[i].overall = true)
    (hmin : ∀ j, (hj : j < fetches.length) → j < i → isTerminalOverall fetches[j].overall = false) :
    pollStatusRun (fetches.map some) =
      ⟨fetches.take (i + 1), List.replicate i POLL_INTERVAL_MS, .resolved fetches[i]⟩ := by
  induction fetches generalizing i with
  | nil => exact absurd hi (by simp)
  | cons s rest ih =>
    cases i with
    | zero =>
      simp only [List.getElem_cons_zero] at hterm
      simp [pollStatusRun, hterm]
    | succ n =>
      have h0 : isTerminalOverall s.overall = false := by
        have := hmin 0 (by simp) (Nat.succ_pos n)
        simpa using this
      have hn : n < rest.length := Nat.lt_of_succ_lt_succ hi
      have hterm2 : isTerminalOverall rest[n].overall = true := by
        simpa using hterm
      have hmin2 : ∀ j, (hj : j < rest.length) → j < n →
          isTerminalOverall rest[j].overall = false := by
        intro j hj hjn
        have := hmin (j + 1) (by simpa using Nat.succ_lt_succ hj) (Nat.succ_lt_succ hjn)
        simpa using this
      have ihr := ih n hn hterm2 hmin2
      simp [pollStatusRun, h0, ihr, List.replicate_succ]

/-- Witness for claim C2: a run whose second fetch is the first
terminal one. -/
theorem pollStatus_first_terminal_witness :
    pollStatusRun [some ⟨"u", [], .running⟩, some ⟨"u", [], .done⟩] =
      ⟨[⟨"u", [], .running⟩, ⟨"u", [], .done⟩], [POLL_INTERVAL_MS],
        .resolved ⟨"u", [], .done⟩⟩ := by
  have h := pollStatus_first_terminal [⟨"u", [], .running⟩, ⟨"u", [], .done⟩] 1 (by decide)
    (by decide) (by decide)
  simpa using h

/-- Claim C6: with a null uploadId neither submitter ever reaches the
network fan-out, and whenever its validation gate passes it fails with
the missing-upload-id outcome. -/
theorem submit_null_uploadId (ms : List FieldMapping) (ufs : List UploadedFile)
    (sel : FileType → List (String × String)) :
    (∀ rs, handleSubmit ms ufs none ≠ .submitted rs) ∧
    ((getValidationStatus ms ufs).isValid = true → handleSubmit ms ufs none = .missingUploadId) ∧
    (∀ rs, simpleHandleSubmit ufs sel none ≠ .submitted rs) ∧
    (simpleValidate ufs sel = [] → simpleHandleSubmit ufs sel none = .missingUploadId) := by
  refine ⟨?_, ?_, ?_, ?_⟩
  · intro rs
    unfold handleSubmit
    by_cases hv : (getValidationStatus ms ufs).isValid <;> simp [hv, strTruthy]
  · intro hv
    unfold handleSubmit
    simp [hv, strTruthy]
  · intro rs
    unfold simpleHandleSubmit
    by_cases hv : simpleValidate ufs sel = [] <;> simp [hv, strTruthy]
  · intro hv
    unfold simpleHandleSubmit
    simp [hv, strTruthy]

/-- Witness for claim C6: empty state passes validation and fails with
the missing-upload-id outcome. -/
theorem submit_null_uploadId_witness :
    handleSubmit [] [] none = .missingUploadId :=
  (submit_null_uploadId [] [] (fun _ => [])).2.1 (by decide)

/-- Claim C7: while the wizard is in the processing step, the polling
observer callback moves the step to complete exactly when the reported
overall status is done; on failed it leaves the step at processing. -/
theorem processing_step_transition (st : WizardView) (status : StatusResponse)
    (h : st.currentStep = .processing) :
    ((pollObserverUpdate st status).currentStep = .complete ↔ status.overall = .done) ∧
    (status.overall = .failed → (pollObserverUpdate st status).currentStep = .processing) := by
  rcases status with ⟨uid, jobs, ov⟩
  cases ov <;> simp [pollObserverUpdate, h]

/-- Witness for claim C7: a failed status leaves the processing
step. -/
theorem processing_step_transition_witness :
    (pollObserverUpdate ⟨.processing, [], .pending⟩ ⟨"u", [], .failed⟩).currentStep =
      .processing :=
  (processing_step_transition ⟨.processing, [], .pending⟩ ⟨"u", [], .failed⟩ rfl).2 rfl

theorem countType_markFile (files : List UploadedFile) (id : String)
    (upd : UploadedFile → UploadedFile) (hupd : ∀ f, (upd f).type = f.type) (t : FileType) :
    countType (markFile files id upd) t = countType files t := by
  unfold countType markFile
  induction files with
  | nil => rfl
  | cons f fs ih =>
    by_cases hid : f.id == id <;>
      simp only [List.map_cons, List.filter_cons, hid, if_true, if_false, hupd f] <;>
      by_cases ht : f.type == t <;> simp_all

theorem countType_jsAddFile (files : List UploadedFile) (nf : UploadedFile) (t : FileType) :
    countType (jsAddFile files nf) t = if nf.type == t then 1 else countType files t := by
  unfold countType jsAddFile
  induction files with
  | nil => by_cases h : nf.type == t <;> simp [List.filter_cons, h]
  | cons f fs ih =>
    by_cases hf : f.type == nf.type <;> by_cases ht : f.type == t <;>
      by_cases hn : nf.type == t <;> simp_all [List.filter_cons]

theorem countType_handleFileUpload (st : UploadState) (newId fileName : String) (ft : FileType)
    (uploadResp : Option String) (detectResp : Option (List MappingSuggestion)) (t : FileType) :
    countType (handleFileUpload st newId fileName ft uploadResp detectResp).1.uploadedFiles t =
      if validExtensions.contains (jsFileExt fileName) then
        (if ft == t then 1 else countType st.uploadedFiles t)
      else countType st.uploadedFiles t := by
  have hs : ∀ s, ∀ f : UploadedFile, (setStatus s f).type = f.type := fun _ _ => rfl
  have hc : ∀ d, ∀ f : UploadedFile, (setCompleted d f).type = f.type := fun _ _ => rfl
  unfold handleFileUpload
  cases hext : validExtensions.contains (jsFileExt fileName) <;>
    cases hid : strTruthy st.uploadId <;>
      cases uploadResp <;> cases detectResp <;>
        simp [hext, hid, countType_markFile _ _ _ (hs _), countType_markFile _ _ _ (hc _),
          countType_jsAddFile]

/-- Claim C10: after every file-upload operation the uploaded-files
list holds at most one file per type; a valid upload of a type already
present replaces the previous entry, leaving exactly one file of that
type. -/
theorem upload_at_most_one_per_type (st : UploadState) (newId fileName : String) (ft : FileType)
    (uploadResp : Option String) (detectResp : Option (List MappingSuggestion))
    (h : ∀ t, countType st.uploadedFiles t ≤ 1) :
    (∀ t, countType (handleFileUpload st newId fileName ft uploadResp detectResp).1.uploadedFiles t ≤ 1) ∧
    (validExtensions.contains (jsFileExt fileName) = true →
      countType (handleFileUpload st newId fileName ft uploadResp detectResp).1.uploadedFiles ft = 1) := by
  constructor
  · intro t
    rw [countType_handleFileUpload]
    cases hext : validExtensions.contains (jsFileExt fileName) <;>
      cases hft : ft == t <;> simp [hext, hft, h t]
  · intro hext
    rw [countType_handleFileUpload, hext]
    simp

/-- Witness for claim C10: replacing the present policy file leaves
exactly one policy file. -/
theorem upload_at_most_one_per_type_witness :
    countType (handleFileUpload ⟨[⟨"id0", "old.csv", .policy, .completed, none⟩], some "u"⟩
        "id1" "new.csv" .policy (some "u9") (some [])).1.uploadedFiles .policy = 1 :=
  (upload_at_most_one_per_type ⟨[⟨"id0", "old.csv", .policy, .completed, none⟩], some "u"⟩
    "id1" "new.csv" .policy (some "u9") (some [])
    (by intro t; cases t <;> decide)).2 (by decide)

/-- Claim C9, amended: once uploadId holds a non-empty id, no later
file upload reassigns it, and every field-detection call of a later
upload uses the fresh upload_id of that upload and targets that
upload's file type. -/
theorem uploadId_stable (st : UploadState) (newId fileName : String) (ft : FileType)
    (uploadResp : Option String) (detectResp : Option (List MappingSuggestion)) (s : String)
    (hs : st.uploadId = some s) (hne : s ≠ "") :
    ((handleFileUpload st newId fileName ft uploadResp detectResp).1.uploadId = some s) ∧
    (∀ uid ft2, ApiEvent.detectCall uid ft2 ∈
        (handleFileUpload st newId fileName ft uploadResp detectResp).2 →
      ft2 = ft ∧ uploadResp = some uid) := by
  have htr : strTruthy (some s) = true := by
    simp [strTruthy, hne]
  unfold handleFileUpload
  cases hext : validExtensions.contains (jsFileExt fileName) <;>
    cases uploadResp <;> cases detectResp <;> simp [hext, htr, hs]

/-- Witness for claim C9: a later upload leaves a non-empty stored
uploadId unchanged. -/
theorem uploadId_stable_witness :
    (handleFileUpload ⟨[], some "u1"⟩ "id2" "b.csv" .claim (some "u2") (some [])).1.uploadId =
      some "u1" :=
  (uploadId_stable ⟨[], some "u1"⟩ "id2" "b.csv" .claim (some "u2") (some []) "u1" rfl
    (by decide)).1

/-- Counterexample for claim C9 as stated: when the first successful
upload stores the empty upload_id, the next upload re-enters the
first-upload branch and reassigns uploadId. -/
theorem uploadId_stable_cex :
    ((handleFileUpload ⟨[], none⟩ "id1" "a.csv" .policy (some "") (some [])).1.uploadId =
        some "") ∧
    ((handleFileUpload (handleFileUpload ⟨[], none⟩ "id1" "a.csv" .policy (some "") (some [])).1
        "id2" "b.csv" .claim (some "u2") (some [])).1.uploadId = some "u2") ∧
    (some "u2" : Option String) ≠ some "" := by
  refine ⟨rfl, rfl, by decide⟩

theorem dupKey_inj {t1 t2 : FileType} {c1 c2 : String} (h : dupKey t1 c1 = dupKey t2 c2) :
    t1 = t2 ∧ c1 = c2 := by
  have h2 := congrArg String.data h
  cases t1 <;> cases t2 <;>
    simp [dupKey, FileType.toStr, String.data_append] at h2 <;>
    exact ⟨rfl, String.ext h2⟩

theorem dupErrMsg_injective : Function.Injective dupErrMsg := by
  intro a b h
  have h2 := congrArg String.data h
  simp [dupErrMsg, String.data_append] at h2
  exact String.ext h2

theorem reqErrMsg_ne_dupErrMsg (n : String) (ft : FileType) (s : String) :
    reqErrMsg n ft ≠ dupErrMsg s := by
  intro h
  have h2 := congrArg String.data h
  simp [reqErrMsg, dupErrMsg, String.data_append] at h2

theorem reqErrMsg_catalog_inj :
    ∀ ft t : FileType, ∀ r ∈ requiredFields ft, ∀ n ∈ requiredFields t,
      reqErrMsg r ft = reqErrMsg n t → r = n ∧ ft = t := by
  intro ft t
  cases ft <;> cases t <;> decide

theorem requiredFields_ne_empty : ∀ t : FileType, ∀ r ∈ requiredFields t, r ≠ "" := by
  intro t
  cases t <;> decide

theorem requiredFields_nodup : ∀ t : FileType, (requiredFields t).Nodup := by
  intro t
  cases t <;> decide

theorem count_jsDupFilter (k : String) :
    ∀ (l seen : List String),
      (jsDupFilter seen l).count k =
        if k ∈ seen then l.count k else l.count k - 1 := by
  intro l
  induction l with
  | nil =>
    intro seen
    by_cases h : k ∈ seen <;> simp [jsDupFilter, h]
  | cons x rest ih =>
    intro seen
    have ihx := ih (x :: seen)
    by_cases hx : x ∈ seen <;> by_cases hk : k = x
    · subst hk
      simp [jsDupFilter, hx, List.count_cons, ihx]
    · simp [jsDupFilter, hx, hk, List.count_cons, List.mem_cons, ihx]
    · subst hk
      simp [jsDupFilter, hx, List.count_cons, ihx]
    · simp [jsDupFilter, hx, hk, List.count_cons, List.mem_cons, ihx]

theorem count_jsDuplicates (k : String) (l : List String) :
    (jsDuplicates l).count k = l.count k - 1 := by
  unfold jsDuplicates
  rw [count_jsDupFilter]
  simp

theorem jsDuplicates_eq_nil_iff (l : List String) :
    jsDuplicates l = [] ↔ ∀ k, l.count k ≤ 1 := by
  constructor
  · intro h k
    have := count_jsDuplicates k l
    rw [h] at this
    simp at this
    omega
  · intro h
    rw [List.eq_nil_iff_forall_not_mem]
    intro k hk
    have hc := count_jsDuplicates k l
    have hpos : 0 < (jsDuplicates l).count k := List.count_pos_iff.mpr hk
    have := h k
    omega

theorem count_mappedKeys (t : FileType) (c : String) (hc : c ≠ "") :
    ∀ ms : List FieldMapping,
      (mappedKeys ms).count (dupKey t c) =
        (ms.filter (fun m => m.fileType == t && m.canonicalField == some c)).length := by
  intro ms
  induction ms with
  | nil => rfl
  | cons m rest ih =>
    unfold mappedKeys at ih ⊢
    rw [List.filter_cons, List.filter_cons]
    cases hcf : m.canonicalField with
    | none =>
      have h1 : strTruthy (none : Option String) = false := rfl
      simp [h1, ih]
    | some s =>
      by_cases hse : s = ""
      · subst hse
        have h1 : strTruthy (some "" : Option String) = false := rfl
        simp [h1, Ne.symm hc, ih]
      · have h1 : strTruthy (some s) = true := by simp [strTruthy, hse]
        by_cases hft : m.fileType = t <;> by_cases hsc : s = c
        · subst hsc
          simp [hcf, h1, hft, List.count_cons, ih]
        · have hne : dupKey t s ≠ dupKey t c := fun h => hsc ((dupKey_inj h).2)
          have hne' : dupKey t c ≠ dupKey t s := Ne.symm hne
          simp [hcf, h1, hft, hsc, hne, hne', List.count_cons, ih]
        · have hne : dupKey m.fileType s ≠ dupKey t c := fun h => hft ((dupKey_inj h).1)
          have hne' : dupKey t c ≠ dupKey m.fileType s := Ne.symm hne
          simp [hcf, h1, hft, hne, hne', List.count_cons, ih]
        · have hne : dupKey m.fileType s ≠ dupKey t c := fun h => hft ((dupKey_inj h).1)
          have hne' : dupKey t c ≠ dupKey m.fileType s := Ne.symm hne
          simp [hcf, h1, hft, hsc, hne, hne', List.count_cons, ih]

theorem mappedKeys_shape (ms : List FieldMapping) (k : String) (hk : k ∈ mappedKeys ms) :
    ∃ t c, c ≠ "" ∧ k = dupKey t c := by
  unfold mappedKeys at hk
  obtain ⟨m, hm, hkey⟩ := List.mem_map.mp hk
  have hmf := List.mem_filter.mp hm
  cases hcf : m.canonicalField with
  | none =>
    have := hmf.2
    rw [hcf] at this
    simp [strTruthy] at this
  | some s =>
    refine ⟨m.fileType, s, ?_, ?_⟩
    · intro hse
      have := hmf.2
      rw [hcf, hse] at this
      simp [strTruthy] at this
    · rw [hcf] at hkey
      simp at hkey
      exact hkey.symm

theorem requiredErrors_eq_nil_iff (ms : List FieldMapping) (ufs : List UploadedFile) :
    requiredErrors ms ufs = [] ↔
      ∀ f ∈ ufs, ∀ r ∈ requiredFields f.type, isMappedIn ms f.type r = true := by
  unfold requiredErrors
  rw [List.flatMap_eq_nil_iff]
  constructor
  · intro h f hf r hr
    have h1 := h f hf
    rw [List.filterMap_eq_nil_iff] at h1
    have h2 := h1 r hr
    by_cases hm : isMappedIn ms f.type r = true
    · exact hm
    · rw [if_neg hm] at h2
      exact absurd h2 (by simp)
  · intro h f hf
    rw [List.filterMap_eq_nil_iff]
    intro r hr
    rw [if_pos (h f hf r hr)]

theorem isMappedIn_iff_filter (ms : List FieldMapping) (t : FileType) (r : String) :
    isMappedIn ms t r = true ↔
      0 < (ms.filter (fun m => m.fileType == t && m.canonicalField == some r)).length := by
  rw [isMappedIn, List.any_eq_true, ← List.countP_eq_length_filter, List.countP_pos_iff]

/-- Claim C1 counterexample: two mappings carrying the empty string as
canonicalField repeat a (fileType, canonicalField) pair with non-null
canonicalField, yet the validator treats them as unmapped and reports
the table valid. -/
theorem validator_isValid_iff_cex :
    ¬((getValidationStatus
          [⟨"colA", some "", .policy, 1, "string", 1, false⟩,
           ⟨"colB", some "", .policy, 1, "string", 1, false⟩] []).isValid = true ↔
        requiredMappedExactlyOnce
          [⟨"colA", some "", .policy, 1, "string", 1, false⟩,
           ⟨"colB", some "", .policy, 1, "string", 1, false⟩] [] ∧
        noDuplicatePairs
          [⟨"colA", some "", .policy, 1, "string", 1, false⟩,
           ⟨"colB", some "", .policy, 1, "string", 1, false⟩]) := by
  intro h
  have h2 := (h.mp rfl).2 FileType.policy ""
  exact absurd h2 (by decide)

/-- Claim C1, amended: isValid holds iff every required canonical
field of every uploaded file type has exactly one source mapped and no
(fileType, canonicalField) pair whose canonicalField is a non-empty
string occurs on more than one mapping. -/
theorem validator_isValid_iff (ms : List FieldMapping) (ufs : List UploadedFile) :
    (getValidationStatus ms ufs).isValid = true ↔
      requiredMappedExactlyOnce ms ufs ∧ noTruthyDuplicatePairs ms := by
  have hdup : jsDuplicates (mappedKeys ms) = [] ↔ noTruthyDuplicatePairs ms := by
    rw [jsDuplicates_eq_nil_iff]
    constructor
    · intro h t c hc
      rw [← count_mappedKeys t c hc ms]
      exact h (dupKey t c)
    · intro h k
      by_cases hk : k ∈ mappedKeys ms
      · obtain ⟨t, c, hc, rfl⟩ := mappedKeys_shape ms k hk
        rw [count_mappedKeys t c hc ms]
        exact h t c hc
      · simp [List.count_eq_zero_of_not_mem hk]
  have hsplit : (getValidationStatus ms ufs).isValid = true ↔
      requiredErrors ms ufs = [] ∧ jsDuplicates (mappedKeys ms) = [] := by
    unfold getValidationStatus
    simp
  rw [hsplit]
  constructor
  · rintro ⟨hA, hB⟩
    have hD := hdup.mp hB
    refine ⟨?_, hD⟩
    intro t ht r hr
    obtain ⟨f, hf, rfl⟩ := List.mem_map.mp ht
    have h1 := (requiredErrors_eq_nil_iff ms ufs).mp hA f hf r hr
    have h2 := (isMappedIn_iff_filter ms f.type r).mp h1
    have h3 := hD f.type r (requiredFields_ne_empty f.type r hr)
    omega
  · rintro ⟨hE, hD⟩
    refine ⟨?_, hdup.mpr hD⟩
    rw [requiredErrors_eq_nil_iff]
    intro f hf r hr
    rw [isMappedIn_iff_filter]
    have := hE f.type (List.mem_map_of_mem _ hf) r hr
    omega

theorem count_reqFilterMap_zero (ms : List FieldMapping) (t ft : FileType) (n : String)
    (hn : n ∈ requiredFields t) :
    ∀ l : List String, (∀ r ∈ l, r ∈ requiredFields ft) →
      (∀ r ∈ l, ¬(r = n ∧ ft = t)) →
      (l.filterMap (fun r =>
          if isMappedIn ms ft r then none else some (reqErrMsg r ft))).count
        (reqErrMsg n t) = 0 := by
  intro l
  induction l with
  | nil => intro _ _; rfl
  | cons r rest ih =>
    intro hsub hne
    rw [List.filterMap_cons]
    have htail := ih (fun x hx => hsub x (List.mem_cons_of_mem r hx))
      (fun x hx => hne x (List.mem_cons_of_mem r hx))
    have hne2 : reqErrMsg n t ≠ reqErrMsg r ft := by
      intro he
      exact hne r (List.mem_cons_self r rest)
        (reqErrMsg_catalog_inj ft t r (hsub r (List.mem_cons_self r rest)) n hn he.symm)
    by_cases hp : isMappedIn ms ft r = true <;> simp [hp, List.count_cons, hne2, htail]

theorem count_reqFilterMap_one (ms : List FieldMapping) (t : FileType) (n : String)
    (hn0 : n ∈ requiredFields t) :
    ∀ l : List String, l.Nodup → (∀ r ∈ l, r ∈ requiredFields t) → n ∈ l →
      (l.filterMap (fun r =>
          if isMappedIn ms t r then none else some (reqErrMsg r t))).count
        (reqErrMsg n t) = if isMappedIn ms t n then 0 else 1 := by
  intro l
  induction l with
  | nil => intro _ _ h; cases h
  | cons r rest ih =>
    intro hnd hsub hmem
    rw [List.filterMap_cons]
    rcases List.mem_cons.mp hmem with h | h
    · subst h
      have hnr : n ∉ rest := (List.nodup_cons.mp hnd).1
      have hrest0 := count_reqFilterMap_zero ms t t n hn0 rest
        (fun x hx => hsub x (List.mem_cons_of_mem n hx))
        (fun x hx hc => hnr (hc.1 ▸ hx))
      by_cases hp : isMappedIn ms t n = true <;> simp [hp, List.count_cons, hrest0]
    · have hrn : r ≠ n := by
        intro he
        exact (List.nodup_cons.mp hnd).1 (he ▸ h)
      have hne2 : reqErrMsg n t ≠ reqErrMsg r t := by
        intro he
        exact hrn (reqErrMsg_catalog_inj t t r (hsub r (List.mem_cons_self r rest)) n hn0
          he.symm).1
      have htail := ih (List.nodup_cons.mp hnd).2
        (fun x hx => hsub x (List.mem_cons_of_mem r hx)) h
      by_cases hp : isMappedIn ms t r = true <;> simp [hp, List.count_cons, hne2, htail]

theorem count_requiredErrors_not_mem (ms : List FieldMapping) (t : FileType) (n : String)
    (hn : n ∈ requiredFields t) :
    ∀ ufs : List UploadedFile, t ∉ ufs.map UploadedFile.type →
      (requiredErrors ms ufs).count (reqErrMsg n t) = 0 := by
  intro ufs
  induction ufs with
  | nil => intro _; rfl
  | cons f rest ih =>
    intro ht
    have h1 : t ≠ f.type ∧ t ∉ rest.map UploadedFile.type := by simpa using ht
    unfold requiredErrors
    rw [List.flatMap_cons, List.count_append]
    have hhead := count_reqFilterMap_zero ms t f.type n hn
      (requiredFields f.type) (fun r hr => hr) (fun r _ hc => h1.1 hc.2.symm)
    have htail := ih h1.2
    unfold requiredErrors at htail
    omega

theorem count_requiredErrors_main (ms : List FieldMapping) (t : FileType) (n : String)
    (hn : n ∈ requiredFields t) :
    ∀ ufs : List UploadedFile, (ufs.map UploadedFile.type).Nodup →
      t ∈ ufs.map UploadedFile.type →
      (requiredErrors ms ufs).count (reqErrMsg n t) =
        if isMappedIn ms t n then 0 else 1 := by
  intro ufs
  induction ufs with
  | nil => intro _ h; simp at h
  | cons f rest ih =>
    intro hnd ht
    rw [List.map_cons] at hnd
    have hnd2 := List.nodup_cons.mp hnd
    unfold requiredErrors
    rw [List.flatMap_cons, List.count_append]
    rw [List.map_cons] at ht
    rcases List.mem_cons.mp ht with h | h
    · subst h
      have hhead := count_reqFilterMap_one ms f.type n hn (requiredFields f.type)
        (requiredFields_nodup f.type) (fun r hr => hr) hn
      have htail := count_requiredErrors_not_mem ms f.type n hn rest hnd2.1
      unfold requiredErrors at htail
      omega
    · have hft : ¬(f.type = t) := by
        intro he
        exact hnd2.1 (he ▸ h)
      have hhead := count_reqFilterMap_zero ms t f.type n hn
        (requiredFields f.type) (fun r hr => hr) (fun r _ hc => hft hc.2)
      have htail := ih hnd2.2 h
      unfold requiredErrors at htail
      omega

/-- Claim C3: for every uploaded file type present (the uploaded types
being pairwise distinct, as the controller maintains) and every
required canonical name of that type, the validator emits exactly one
occurrence of the required-field error string when no mapping of that
type carries that canonical name, and none when one does. -/
theorem validator_required_error_count (ms : List FieldMapping) (ufs : List UploadedFile)
    (t : FileType) (n : String) (hn : n ∈ requiredFields t)
    (hnd : (ufs.map UploadedFile.type).Nodup) (ht : t ∈ ufs.map UploadedFile.type) :
    (getValidationStatus ms ufs).errors.count (reqErrMsg n t) =
      if isMappedIn ms t n then 0 else 1 := by
  have hdup0 : ((jsDuplicates (mappedKeys ms)).map dupErrMsg).count (reqErrMsg n t) = 0 := by
    rw [List.count_eq_zero]
    intro hmem
    obtain ⟨k, _, hk⟩ := List.mem_map.mp hmem
    exact reqErrMsg_ne_dupErrMsg n t k hk.symm
  have hmain := count_requiredErrors_main ms t n hn ufs hnd ht
  unfold getValidationStatus
  rw [List.count_append, hdup0, hmain]
  omega

/-- Witness for claim C3: an uploaded policy file with no mappings
yields exactly one missing-policy_number error. -/
theorem validator_required_error_count_witness :
    (getValidationStatus [] [⟨"f1", "p.csv", .policy, .completed, none⟩]).errors.count
      (reqErrMsg "policy_number" FileType.policy) = 1 := by
  have h := validator_required_error_count [] [⟨"f1", "p.csv", .policy, .completed, none⟩]
    FileType.policy "policy_number" (by decide) (by decide) (by decide)
  simpa using h

theorem requiredErrors_shape (ms : List FieldMapping) (ufs : List UploadedFile) :
    ∀ e ∈ requiredErrors ms ufs, ∃ r ft, e = reqErrMsg r ft := by
  intro e he
  unfold requiredErrors at he
  obtain ⟨f, _, he2⟩ := List.mem_flatMap.mp he
  obtain ⟨r, _, heq⟩ := List.mem_filterMap.mp he2
  split at heq
  · exact absurd heq (by simp)
  · exact ⟨r, f.type, (Option.some_inj.mp heq).symm⟩

/-- Claim C4 counterexample: two mappings sharing the pair (policy,
empty string) have non-null canonicalField, but the validator emits no
duplicate error for them instead of the k - 1 = 1 the claim
demands. -/
theorem validator_dup_error_count_cex :
    (([⟨"colA", some "", FileType.policy, 1, "string", 1, false⟩,
       ⟨"colB", some "", FileType.policy, 1, "string", 1, false⟩] : List FieldMapping).filter
        (fun m => m.fileType == FileType.policy && m.canonicalField == some "")).length = 2 ∧
    (getValidationStatus
        [⟨"colA", some "", FileType.policy, 1, "string", 1, false⟩,
         ⟨"colB", some "", FileType.policy, 1, "string", 1, false⟩] []).errors.count
      (dupErrMsg (dupKey FileType.policy "")) ≠ 2 - 1 := by
  constructor
  · decide
  · decide

/-- Claim C4, amended: if exactly k mappings whose canonicalField is
the same non-empty string share the same (fileType, canonicalField)
pair, with k at least 2, the validator emits exactly k - 1 occurrences
of the duplicate error for that pair. -/
theorem validator_dup_error_count (ms : List FieldMapping) (ufs : List UploadedFile)
    (t : FileType) (c : String) (k : Nat) (hc : c ≠ "")
    (hk : (ms.filter (fun m => m.fileType == t && m.canonicalField == some c)).length = k)
    (h2 : 2 ≤ k) :
    (getValidationStatus ms ufs).errors.count (dupErrMsg (dupKey t c)) = k - 1 := by
  have hreq0 : (requiredErrors ms ufs).count (dupErrMsg (dupKey t c)) = 0 := by
    rw [List.count_eq_zero]
    intro hmem
    obtain ⟨r, ft, he⟩ := requiredErrors_shape ms ufs _ hmem
    exact reqErrMsg_ne_dupErrMsg r ft (dupKey t c) he.symm
  have hmap : ((jsDuplicates (mappedKeys ms)).map dupErrMsg).count (dupErrMsg (dupKey t c)) =
      (jsDuplicates (mappedKeys ms)).count (dupKey t c) :=
    List.count_map_of_injective _ dupErrMsg dupErrMsg_injective _
  unfold getValidationStatus
  rw [List.count_append, hreq0, hmap, count_jsDuplicates, count_mappedKeys t c hc ms, hk]
  omega

/-- Witness for claim C4: two mappings both assigned policy_number in
the policy file yield exactly one duplicate error. -/
theorem validator_dup_error_count_witness :
    (getValidationStatus
        [⟨"A", some "policy_number", .policy, 1, "string", 1, true⟩,
         ⟨"B", some "policy_number", .policy, 1, "string", 1, true⟩] []).errors.count
      (dupErrMsg (dupKey FileType.policy "policy_number")) = 2 - 1 :=
  validator_dup_error_count
    [⟨"A", some "policy_number", .policy, 1, "string", 1, true⟩,
     ⟨"B", some "policy_number", .policy, 1, "string", 1, true⟩] [] FileType.policy
    "policy_number" 2 (by decide) (by decide) (by decide)

theorem mem_jsObjSet {α : Type} (l : List (String × α)) (k : String) (v : α)
    (p : String × α) (hp : p ∈ jsObjSet l k v) : p ∈ l ∨ p = (k, v) := by
  unfold jsObjSet at hp
  split at hp
  · obtain ⟨q, hq, he⟩ := List.mem_map.mp hp
    by_cases hqk : q.1 == k
    · rw [if_pos hqk] at he
      exact Or.inr he.symm
    · rw [if_neg hqk] at he
      exact Or.inl (he ▸ hq)
  · rcases List.mem_append.mp hp with h | h
    · exact Or.inl h
    · exact Or.inr (List.mem_singleton.mp h)

theorem simpleEntryFor_canonical (file : Option UploadedFile) (c source : String) :
    (simpleEntryFor file c source).canonical_field = c := by
  unfold simpleEntryFor
  split <;> rfl

theorem mem_simpleGroupFold (file : Option UploadedFile) (e : String × SimpleEntry) :
    ∀ (picked : List (String × String)) (acc : List (String × SimpleEntry)),
      e ∈ picked.foldl (fun acc p =>
          if p.2 == "" then acc else jsObjSet acc p.2 (simpleEntryFor file p.1 p.2)) acc →
      e ∈ acc ∨ ∃ q ∈ picked, e = (q.2, simpleEntryFor file q.1 q.2) := by
  intro picked
  induction picked with
  | nil =>
    intro acc h
    exact Or.inl h
  | cons q rest ih =>
    intro acc h
    rw [List.foldl_cons] at h
    rcases ih _ h with h2 | h2
    · by_cases hq : q.2 == ""
      · rw [if_pos hq] at h2
        exact Or.inl h2
      · rw [if_neg hq] at h2
        rcases mem_jsObjSet _ _ _ _ h2 with h3 | h3
        · exact Or.inl h3
        · exact Or.inr ⟨q, List.mem_cons_self q rest, h3⟩
    · obtain ⟨q2, hq2, he⟩ := h2
      exact Or.inr ⟨q2, List.mem_cons_of_mem _ hq2, he⟩

/-- Claim C8: in the wizard variant wired into the controller, every
canonical_field key of the initial selections, of any reachable
selection table, and of any submitted mapping payload belongs to
REQUIRED_FIELDS of its file type, so optional canonical fields are
never mapped or submitted. -/
theorem simple_wizard_required_only (ufs : List UploadedFile)
    (sel : FileType → List (String × String)) (h : ReachableSel ufs sel) :
    (∀ ft : FileType, ∀ p ∈ sel ft, p.1 ∈ REQUIRED_FIELDS ft) ∧
    (∀ uid : String, ∀ r ∈ simpleBuildRequests uid ufs sel, ∀ e ∈ r.mappings,
      e.2.canonical_field ∈ REQUIRED_FIELDS r.file_type) := by
  have hsel : ∀ ft : FileType, ∀ p ∈ sel ft, p.1 ∈ REQUIRED_FIELDS ft := by
    induction h with
    | init =>
      intro ft p hp
      unfold initialSelections initSelectionsFor at hp
      split at hp
      · exact absurd hp (by simp)
      · obtain ⟨c, hc, he⟩ := List.mem_filterMap.mp hp
        split at he
        · obtain ⟨h1, h2⟩ := Prod.mk.injEq .. ▸ Option.some_inj.mp he
          exact h1 ▸ hc
        · exact absurd he (by simp)
    | update h1 hc2 ih =>
      intro ft2 p hp
      unfold setSelection at hp
      split at hp
      · next heq =>
        have hft : ft2 = _ := eq_of_beq heq
        rcases mem_jsObjSet _ _ _ _ hp with h3 | h3
        · exact hft ▸ ih _ p (hft ▸ h3)
        · rw [h3]
          exact hft ▸ hc2
      · exact ih _ p hp
  refine ⟨hsel, ?_⟩
  intro uid r hr e he
  unfold simpleBuildRequests at hr
  obtain ⟨p, hp, he2⟩ := List.mem_map.mp hr
  have hpf := List.mem_filter.mp hp
  obtain ⟨ft, _, heq⟩ := List.mem_filterMap.mp hpf.1
  split at heq
  · exact absurd heq (by simp)
  · have hpe : p = (ft, simpleGroupFor (some _) (sel ft)) := (Option.some_inj.mp heq).symm
    rw [← he2] at he ⊢
    simp only [hpe] at he ⊢
    rcases mem_simpleGroupFold _ e (sel ft) [] he with h3 | h3
    · exact absurd h3 (by simp)
    · obtain ⟨q, hq, he3⟩ := h3
      rw [he3]
      simp only [simpleEntryFor_canonical]
      exact hsel ft q hq

/-- Witness for claim C8: policy_number, picked by the initial
selections from a concrete suggestion, is a required policy field. -/
theorem simple_wizard_required_only_witness :
    ("policy_number" : String) ∈ REQUIRED_FIELDS FileType.policy :=
  (simple_wizard_required_only
      [⟨"f1", "p.csv", .policy, .completed,
        some [⟨"PolicyNo", "policy_number", 99, "string", 95 / 100⟩]⟩]
      (initialSelections
        [⟨"f1", "p.csv", .policy, .completed,
          some [⟨"PolicyNo", "policy_number", 99, "string", 95 / 100⟩]⟩])
      ReachableSel.init).1 FileType.policy ("policy_number", "PolicyNo") (by decide)

theorem jsObjSet_of_fresh {α : Type} (l : List (String × α)) (k : String) (v : α)
    (h : ∀ q ∈ l, ¬(q.1 = k)) : jsObjSet l k v = l ++ [(k, v)] := by
  unfold jsObjSet
  rw [if_neg]
  intro hany
  obtain ⟨q, hq, hqk⟩ := List.any_eq_true.mp hany
  exact h q hq (eq_of_beq hqk)

theorem groupedMappings_eq_foldl (ms : List FieldMapping) :
    groupedMappings ms = (truthyMs ms).foldl groupedSet [] := by
  unfold groupedMappings truthyMs
  suffices h : ∀ acc, ms.foldl (fun acc m =>
      if strTruthy m.canonicalField = true then groupedSet acc m else acc) acc =
      (ms.filter (fun m => strTruthy m.canonicalField)).foldl groupedSet acc from h []
  induction ms with
  | nil => intro acc; rfl
  | cons m rest ih =>
    intro acc
    rw [List.foldl_cons, List.filter_cons]
    by_cases hm : strTruthy m.canonicalField = true
    · rw [if_pos hm, if_pos hm, List.foldl_cons]
      exact ih _
    · rw [if_neg hm, if_neg (by simpa using hm)]
      exact ih _

theorem groupedSet_fst (g : List (FileType × List (String × SubmitEntry))) (m : FieldMapping)
    (hpres : g.any (fun p => p.1 == m.fileType) = true) :
    (groupedSet g m).map Prod.fst = g.map Prod.fst := by
  unfold groupedSet
  rw [if_pos hpres, List.map_map]
  apply List.map_congr_left
  intro p _
  by_cases hp : p.1 = m.fileType
  · simp [hp]
  · simp [hp]

theorem groupedSet_inv (processed : List FieldMapping)
    (g : List (FileType × List (String × SubmitEntry))) (m : FieldMapping)
    (hnodup : (g.map Prod.fst).Nodup)
    (hmem : ∀ t : FileType, t ∈ g.map Prod.fst ↔ t ∈ processed.map FieldMapping.fileType)
    (hgrp : ∀ p ∈ g, p.2 = (processed.filter (fun x => x.fileType == p.1)).map
        (fun x => (x.sourceField, submitEntry x)))
    (hfresh : ∀ x ∈ processed, ¬(x.fileType = m.fileType ∧ x.sourceField = m.sourceField)) :
    ((groupedSet g m).map Prod.fst).Nodup ∧
    (∀ t : FileType, t ∈ (groupedSet g m).map Prod.fst ↔
      t ∈ (processed ++ [m]).map FieldMapping.fileType) ∧
    (∀ p ∈ groupedSet g m, p.2 = ((processed ++ [m]).filter (fun x => x.fileType == p.1)).map
        (fun x => (x.sourceField, submitEntry x))) := by
  by_cases hpres : g.any (fun p => p.1 == m.fileType) = true
  · have hfst := groupedSet_fst g m hpres
    have hmf : m.fileType ∈ g.map Prod.fst := by
      obtain ⟨p, hp, hpk⟩ := List.any_eq_true.mp hpres
      exact eq_of_beq hpk ▸ List.mem_map_of_mem Prod.fst hp
    refine ⟨hfst ▸ hnodup, ?_, ?_⟩
    · intro t
      rw [hfst, List.map_append, List.mem_append]
      constructor
      · intro ht
        exact Or.inl ((hmem t).mp ht)
      · rintro (ht | ht)
        · exact (hmem t).mpr ht
        · rw [List.map_singleton, List.mem_singleton] at ht
          exact ht ▸ hmf
    · intro p hp
      unfold groupedSet at hp
      rw [if_pos hpres] at hp
      obtain ⟨q, hq, he⟩ := List.mem_map.mp hp
      rw [List.filter_append, List.map_append]
      by_cases hqk : q.1 == m.fileType
      · rw [if_pos hqk] at he
        have hqm : q.1 = m.fileType := eq_of_beq hqk
        have hkeys : ∀ e ∈ q.2, ¬(e.1 = m.sourceField) := by
          intro e hee he1
          rw [hgrp q hq] at hee
          obtain ⟨x, hx, hxe⟩ := List.mem_map.mp hee
          have hxf := List.mem_filter.mp hx
          exact hfresh x hxf.1 ⟨hqm ▸ eq_of_beq hxf.2, by rw [← hxe] at he1; exact he1⟩
        rw [← he]
        simp only
        rw [jsObjSet_of_fresh q.2 m.sourceField (submitEntry m) hkeys, hgrp q hq]
        have hm1 : (m.fileType == q.1) = true := beq_iff_eq.mpr hqm.symm
        simp [List.filter_cons, hm1]
      · rw [if_neg hqk] at he
        rw [← he]
        have hm1 : (m.fileType == q.1) = false := by
          rw [beq_eq_false_iff_ne]
          intro hh
          exact hqk (beq_iff_eq.mpr hh.symm)
        simp [List.filter_cons, hm1, hgrp q hq]
  · have habs : m.fileType ∉ g.map Prod.fst := by
      intro hmf
      obtain ⟨p, hp, hpe⟩ := List.mem_map.mp hmf
      exact hpres (List.any_eq_true.mpr ⟨p, hp, beq_iff_eq.mpr hpe⟩)
    have hge : groupedSet g m = g ++ [(m.fileType, [(m.sourceField, submitEntry m)])] := by
      unfold groupedSet
      rw [if_neg (by simpa using hpres)]
    have hproc : m.fileType ∉ processed.map FieldMapping.fileType :=
      fun hh => habs ((hmem m.fileType).mpr hh)
    have hfilterNil : processed.filter (fun x => x.fileType == m.fileType) = [] := by
      rw [List.filter_eq_nil_iff]
      intro x hx hxe
      exact hproc (eq_of_beq hxe ▸ List.mem_map_of_mem FieldMapping.fileType hx)
    refine ⟨?_, ?_, ?_⟩
    · rw [hge, List.map_append, List.map_singleton]
      rw [List.nodup_append]
      refine ⟨hnodup, List.nodup_singleton _, ?_⟩
      intro t ht ht2
      rw [List.mem_singleton] at ht2
      subst ht2
      exact habs ht
    · intro t
      rw [hge, List.map_append, List.map_append, List.mem_append, List.mem_append,
        List.map_singleton, List.map_singleton]
      exact or_congr (hmem t) Iff.rfl
    · intro p hp
      rw [hge] at hp
      rcases List.mem_append.mp hp with h | h
      · have hne : (m.fileType == p.1) = false := by
          rw [beq_eq_false_iff_ne]
          intro hh
          exact habs (hh ▸ List.mem_map_of_mem Prod.fst h)
        rw [List.filter_append, List.map_append]
        simp [List.filter_cons, hne, hgrp p h]
      · rw [List.mem_singleton] at h
        subst h
        rw [List.filter_append, List.map_append]
        simp [List.filter_cons, hfilterNil]

theorem foldl_groupedSet_inv :
    ∀ (ts processed : List FieldMapping) (g : List (FileType × List (String × SubmitEntry))),
      (g.map Prod.fst).Nodup →
      (∀ t : FileType, t ∈ g.map Prod.fst ↔ t ∈ processed.map FieldMapping.fileType) →
      (∀ p ∈ g, p.2 = (processed.filter (fun x => x.fileType == p.1)).map
          (fun x => (x.sourceField, submitEntry x))) →
      ((processed ++ ts).map (fun y => (y.fileType, y.sourceField))).Nodup →
      ((ts.foldl groupedSet g).map Prod.fst).Nodup ∧
      (∀ t : FileType, t ∈ (ts.foldl groupedSet g).map Prod.fst ↔
        t ∈ (processed ++ ts).map FieldMapping.fileType) ∧
      (∀ p ∈ ts.foldl groupedSet g,
        p.2 = ((processed ++ ts).filter (fun x => x.fileType == p.1)).map
          (fun x => (x.sourceField, submitEntry x))) := by
  intro ts
  induction ts with
  | nil =>
    intro processed g h1 h2 h3 _
    rw [List.append_nil]
    exact ⟨h1, h2, h3⟩
  | cons m rest ih =>
    intro processed g h1 h2 h3 hnd
    have hfresh : ∀ x ∈ processed,
        ¬(x.fileType = m.fileType ∧ x.sourceField = m.sourceField) := by
      intro x hx hc
      rw [List.map_append] at hnd
      have hdisj := (List.nodup_append.mp hnd).2.2
      have hx1 : (m.fileType, m.sourceField) ∈ processed.map
          (fun y => (y.fileType, y.sourceField)) :=
        List.mem_map.mpr ⟨x, hx, by rw [hc.1, hc.2]⟩
      have hx2 : (m.fileType, m.sourceField) ∈ (m :: rest).map
          (fun y => (y.fileType, y.sourceField)) := by
        rw [List.map_cons]
        exact List.mem_cons_self _ _
      exact hdisj hx1 hx2
    rw [List.foldl_cons]
    have hstep := groupedSet_inv processed g m h1 h2 h3 hfresh
    have hnd2 : (((processed ++ [m]) ++ rest).map
        (fun y => (y.fileType, y.sourceField))).Nodup := by
      rw [List.append_assoc, List.singleton_append]
      exact hnd
    have hmain := ih (processed ++ [m]) (groupedSet g m) hstep.1 hstep.2.1 hstep.2.2 hnd2
    rw [List.append_assoc, List.singleton_append] at hmain
    exact hmain

theorem grouped_charact (ms : List FieldMapping)
    (hnd : ((truthyMs ms).map (fun y => (y.fileType, y.sourceField))).Nodup) :
    ((groupedMappings ms).map Prod.fst).Nodup ∧
    (∀ t : FileType, t ∈ (groupedMappings ms).map Prod.fst ↔
      t ∈ (truthyMs ms).map FieldMapping.fileType) ∧
    (∀ p ∈ groupedMappings ms,
      p.2 = ((truthyMs ms).filter (fun x => x.fileType == p.1)).map
        (fun x => (x.sourceField, submitEntry x))) := by
  rw [groupedMappings_eq_foldl]
  have h := foldl_groupedSet_inv (truthyMs ms) [] [] (by simp) (by simp) (by simp)
    (by simpa using hnd)
  simpa using h

theorem filter_map_mk_length (g : List (FileType × List (String × SubmitEntry))) (uid : String)
    (t : FileType) :
    ((g.map (fun p => (⟨uid, p.1, p.2⟩ : MappingRequest))).filter
        (fun r => r.file_type == t)).length = (g.filter (fun p => p.1 == t)).length := by
  induction g with
  | nil => rfl
  | cons p rest ih =>
    rw [List.map_cons, List.filter_cons, List.filter_cons]
    by_cases hp : p.1 == t
    · simp only [hp]
      simp [ih]
    · simp only [hp]
      simp [ih]

theorem filter_fst_length (g : List (FileType × List (String × SubmitEntry))) (t : FileType)
    (h : (g.map Prod.fst).Nodup) :
    (g.filter (fun p => p.1 == t)).length = if t ∈ g.map Prod.fst then 1 else 0 := by
  induction g with
  | nil => simp
  | cons p rest ih =>
    rw [List.map_cons] at h
    have h2 := List.nodup_cons.mp h
    rw [List.filter_cons]
    by_cases hp : p.1 == t
    · have ht : t = p.1 := (eq_of_beq hp).symm
      subst ht
      have h0 : (rest.filter (fun q => q.1 == p.1)).length = 0 := by
        rw [List.length_eq_zero, List.filter_eq_nil_iff]
        intro q hq hqe
        exact h2.1 (eq_of_beq hqe ▸ List.mem_map_of_mem Prod.fst hq)
      rw [if_pos hp, List.map_cons, if_pos (List.mem_cons_self _ _), List.length_cons, h0]
    · have ht : ¬(t = p.1) := fun hh => hp (beq_iff_eq.mpr hh.symm)
      rw [if_neg hp, List.map_cons, ih h2.2]
      by_cases hm : t ∈ List.map Prod.fst rest <;> simp [hm, List.mem_cons, ht]

/-- Claim C5 counterexample: a file type whose only mapping has the
empty string as canonicalField has a mapping with non-null
canonicalField, yet the submitter dispatches no request at all for it
(the truthiness filter drops the mapping). -/
theorem submit_one_request_per_type_cex :
    handleSubmit [⟨"x", some "", FileType.policy, 1, "string", 1, false⟩] [] (some "u") =
      .submitted [] ∧
    buildRequests "u" [⟨"x", some "", FileType.policy, 1, "string", 1, false⟩] = [] ∧
    ([⟨"x", some "", FileType.policy, 1, "string", 1, false⟩] : List FieldMapping).any
      (fun m => m.fileType == FileType.policy && !(m.canonicalField == none)) = true := by
  refine ⟨by decide, by decide, by decide⟩

/-- Claim C5, amended: on a submitted run, handleSubmit issues exactly
one request per file type that has at least one mapping with truthy
(non-null, non-empty) canonicalField; each request carries the given
uploadId and exactly that file type's truthy mappings keyed by
sourceField (the (fileType, sourceField) pairs of the truthy mappings
being pairwise distinct); mappings with null canonicalField never
appear in a payload. -/
theorem submit_one_request_per_type (ms : List FieldMapping) (ufs : List UploadedFile)
    (uid : String)
    (hnd : ((truthyMs ms).map (fun y => (y.fileType, y.sourceField))).Nodup)
    (hval : (getValidationStatus ms ufs).isValid = true) (huid : uid ≠ "") :
    handleSubmit ms ufs (some uid) = .submitted (buildRequests uid ms) ∧
    (∀ t : FileType, ((buildRequests uid ms).filter (fun r => r.file_type == t)).length =
        if t ∈ (truthyMs ms).map FieldMapping.fileType then 1 else 0) ∧
    (∀ r ∈ buildRequests uid ms, r.upload_id = uid ∧
        r.mappings = ((truthyMs ms).filter (fun m => m.fileType == r.file_type)).map
          (fun m => (m.sourceField, submitEntry m))) := by
  obtain ⟨hc1, hc2, hc3⟩ := grouped_charact ms hnd
  refine ⟨?_, ?_, ?_⟩
  · unfold handleSubmit
    rw [hval]
    simp [strTruthy, huid]
  · intro t
    unfold buildRequests
    rw [filter_map_mk_length, filter_fst_length _ _ hc1]
    by_cases hm : t ∈ (groupedMappings ms).map Prod.fst
    · rw [if_pos hm, if_pos ((hc2 t).mp hm)]
    · rw [if_neg hm, if_neg (fun hh => hm ((hc2 t).mpr hh))]
  · intro r hr
    unfold buildRequests at hr
    obtain ⟨p, hp, he⟩ := List.mem_map.mp hr
    rw [← he]
    exact ⟨rfl, hc3 p hp⟩

/-- Witness for claim C5: one policy mapping and one claim mapping
yield exactly the two expected requests. -/
theorem submit_one_request_per_type_witness :
    handleSubmit
        [⟨"A", some "policy_number", .policy, 1, "string", 1, true⟩,
         ⟨"B", some "claim_number", .claim, 1, "string", 1, true⟩] [] (some "u") =
      .submitted (buildRequests "u"
        [⟨"A", some "policy_number", .policy, 1, "string", 1, true⟩,
         ⟨"B", some "claim_number", .claim, 1, "string", 1, true⟩]) :=
  (submit_one_request_per_type
    [⟨"A", some "policy_number", .policy, 1, "string", 1, true⟩,
     ⟨"B", some "claim_number", .claim, 1, "string", 1, true⟩] [] "u"
    (by decide) (by decide) (by decide)).1
